import Mathlib

/-!
Verification of the core ingestion loop of serial-monitor-rust
(`src/main.rs`: `split`, `parse_qcm_event`, `main_thread`).

Strings are modelled as `List Char`; `f64` values are modelled as exact
rationals `ℚ` (decimal literals are represented exactly; floating-point
rounding and the non-finite literals `inf`/`NaN` are outside the model).
Timestamps (`Duration` / wall-clock) are modelled as abstract `Nat`s, since
the core loop only moves them around.
-/

namespace SerialMonitor

/-- Model of Rust's `str::split(sep)` for a one-character separator:
always returns at least one (possibly empty) piece, with empty pieces kept
around consecutive or leading/trailing separators. -/
def splitOnChar (sep : Char) : List Char → List (List Char)
  | [] => [[]]
  | c :: cs =>
    match splitOnChar sep cs, decide (c = sep) with
    | r, true => [] :: r
    | [], false => [[c]]
    | t :: ts, false => (c :: t) :: ts

/-- Model of Rust's `str::trim`: drop whitespace from both ends. -/
def trim (l : List Char) : List Char :=
  ((l.dropWhile Char.isWhitespace).reverse.dropWhile Char.isWhitespace).reverse

/-- Decimal value of a digit string. -/
def digitsVal (l : List Char) : Nat :=
  l.foldl (fun a c => 10 * a + (c.toNat - '0'.toNat)) 0

/-- Model of Rust's `str::parse::<f64>()` restricted to finite decimal
literals, with the parsed value represented exactly in `ℚ`:
optional sign, then a mantissa containing at least one digit
(`d+`, `d+.d*` or `.d+`), then an optional exponent `e/E [sign] d+`.
The non-finite literals `inf`/`infinity`/`NaN` and rounding to the nearest
`f64` are outside the model. -/
def parseF64 (l : List Char) : Option ℚ :=
  let (sgn, r) : ℤ × List Char :=
    match l with
    | '+' :: r => (1, r)
    | '-' :: r => (-1, r)
    | r => (1, r)
  let ip := r.takeWhile Char.isDigit
  let r1 := r.dropWhile Char.isDigit
  let (fp, r2) : List Char × List Char :=
    match r1 with
    | '.' :: rest => (rest.takeWhile Char.isDigit, rest.dropWhile Char.isDigit)
    | _ => ([], r1)
  if ip = [] ∧ fp = [] then none
  else
    -- the signed mantissa scaled to an integer; the value is
    -- mant / 10 ^ fp.length, times 10 ^ (signed exponent)
    let mant : ℤ := sgn * ((digitsVal ip * 10 ^ fp.length + digitsVal fp : ℕ) : ℤ)
    match r2 with
    | [] => some (mkRat mant (10 ^ fp.length))
    | e :: rest =>
      if e = 'e' ∨ e = 'E' then
        let (eneg, r3) : Bool × List Char :=
          match rest with
          | '+' :: r => (false, r)
          | '-' :: r => (true, r)
          | r => (false, r)
        let ed := r3.takeWhile Char.isDigit
        let r4 := r3.dropWhile Char.isDigit
        if ed = [] ∨ r4 ≠ [] then none
        else if eneg then some (mkRat mant (10 ^ fp.length * 10 ^ digitsVal ed))
        else some (mkRat (mant * 10 ^ digitsVal ed) (10 ^ fp.length))
      else none

/-- Model of Rust's `str::parse::<i32>()`: optional sign, then only digits
(at least one), rejected on 32-bit signed overflow. -/
def parseI32 (l : List Char) : Option ℤ :=
  let (sgn, r) : ℤ × List Char :=
    match l with
    | '+' :: r => (1, r)
    | '-' :: r => (-1, r)
    | r => (1, r)
  if r = [] ∨ ¬ r.all Char.isDigit then none
  else
    let v : ℤ := sgn * (digitsVal r : ℤ)
    if v < -(2 ^ 31) ∨ 2 ^ 31 - 1 < v then none else some v

/-- Model of Rust's `str::parse::<usize>()` (64-bit): optional `+`, then
only digits (at least one), rejected on overflow. -/
def parseUsize (l : List Char) : Option ℕ :=
  let r : List Char :=
    match l with
    | '+' :: r => r
    | r => r
  if r = [] ∨ ¬ r.all Char.isDigit then none
  else
    let v := digitsVal r
    if 2 ^ 64 - 1 < v then none else some v

/-- `fn split(payload: &str) -> Vec<f64>` from `src/main.rs`: split the
payload on `':'`, extend each piece split on `','`, trim every token and
keep, in order, exactly the tokens that parse as floats. -/
def split (payload : List Char) : List ℚ :=
  let split_data := (splitOnChar ':' payload).foldl (fun acc s => acc ++ splitOnChar ',' s) []
  (split_data.map trim).flatMap (fun x => (parseF64 x).toList)

/-- `enum QCMEvent` from `src/main.rs`. -/
inductive QCMEvent where
  | BiasDetectStart
  | BiasResult (v : ℤ)
  | PhaseBaseDetectStart
  | PhaseBaseResult (v : ℚ)
  | ShotIQStart (v : ℕ)
  | ShotIQFinish (v : ℕ)
  | RealtimeIQStart (v : ℕ)
  | RealtimeIQFinish (v : ℕ)
  | TrackStart (v : ℕ)
  | MultiParamsStart (v : ℕ)
  deriving DecidableEq, Repr

/-- `fn parse_qcm_event(cmd_strs: Vec<&str>) -> Option<QCMEvent>` from
`src/main.rs`. The Rust code indexes `cmd_strs[0]` unchecked and would
panic on an empty vector; the `[]` case below is unreachable at the only
call site (the caller always passes the result of a `split("$")`, which is
never empty — proved below). -/
def parse_qcm_event : List (List Char) → Option QCMEvent
  | [] => none
  | event_str :: rest =>
    if event_str = "BIASST".toList then some QCMEvent.BiasDetectStart
    else if event_str = "BIAS".toList then
      (rest.head?).bind fun a => (parseI32 (trim a)).map QCMEvent.BiasResult
    else if event_str = "PHAST".toList then some QCMEvent.PhaseBaseDetectStart
    else if event_str = "PHABASE".toList then
      (rest.head?).bind fun a => (parseF64 (trim a)).map QCMEvent.PhaseBaseResult
    else if event_str = "SHOTST".toList then
      (rest.head?).bind fun a => (parseUsize (trim a)).map QCMEvent.ShotIQStart
    else if event_str = "SHOTFIN".toList then
      (rest.head?).bind fun a => (parseUsize (trim a)).map QCMEvent.ShotIQFinish
    else if event_str = "RTST".toList then
      (rest.head?).bind fun a => (parseUsize (trim a)).map QCMEvent.RealtimeIQStart
    else if event_str = "RTFIN".toList then
      (rest.head?).bind fun a => (parseUsize (trim a)).map QCMEvent.RealtimeIQFinish
    else if event_str = "TRACKST".toList then
      (rest.head?).bind fun a => (parseUsize (trim a)).map QCMEvent.TrackStart
    else if event_str = "MULPARAST".toList then
      (rest.head?).bind fun a => (parseUsize (trim a)).map QCMEvent.MultiParamsStart
    else none

/-- `Packet` (declared in `data.rs`, not under `src/`). Modelled from the
spec: one received line with `payload` (text), `relative_time` (elapsed
duration since stream start) and `absolute_time` (wall-clock timestamp);
both timestamps abstracted to `Nat`. -/
structure Packet where
  payload : List Char
  relative_time : Nat
  absolute_time : Nat
  deriving DecidableEq, Repr

/-- `DataContainer` (declared in `data.rs`, not under `src/`). Modelled
from the spec: `names` (channel labels), parallel bounded sequences
`time` / `absolute_time`, per-channel sequences `dataset`, and the
optional `raw_traffic` history of retained Packets. -/
structure DataContainer where
  names : List String
  time : List Nat
  absolute_time : List Nat
  dataset : List (List ℚ)
  raw_traffic : List Packet
  deriving DecidableEq, Repr

/-- Modelled from the spec: `DataContainer::default()` (from `data.rs`,
not under `src/`) — the empty store the loop starts from and that the
Clear command restores. -/
def DataContainer.default : DataContainer :=
  { names := [], time := [], absolute_time := [], dataset := [], raw_traffic := [] }

/-- `RawTrafficOptions` (declared in `gui.rs`, not under `src/`). Modelled
from the spec: an enable flag and a maximum retained length for the
raw-traffic history. -/
structure RawTrafficOptions where
  enable : Bool
  max_len : Nat
  deriving DecidableEq, Repr

/-- `GuiWindows` (declared in `gui.rs`, not under `src/`). Modelled from
the spec: the display-window mode flag; only the distinction between the
raw-passthrough window (`RawUART`) and the protocol-aware window matters
to the core loop. -/
inductive GuiWindows where
  | RawUART
  | QCM
  deriving DecidableEq, Repr

/-- `Print` (declared in `gui.rs`, not under `src/`). Modelled from the
spec: the leveled message stream (Ok / Error / Debug / Empty) surfaced to
the log sink. -/
inductive Print where
  | Ok (msg : List Char)
  | Error (msg : List Char)
  | Debug (msg : List Char)
  | Empty
  deriving DecidableEq, Repr

/-- `RecordData` (declared in `record.rs`, not under `src/`). Modelled
from the spec: one forwarded Recorded Sample — a timestamp plus the
ordered accepted values of one data line. -/
structure RecordData where
  time : Nat
  datas : List ℚ
  deriving DecidableEq, Repr

/-- `FileOptions` (declared in `io.rs`, not under `src/`). Modelled from
the spec: save-to-file options; only the destination path is relevant to
the messages the core loop emits. -/
structure FileOptions where
  file_path : List Char
  deriving DecidableEq, Repr

/-- `enum GuiEvent` from `src/main.rs`. `SaveCSV` additionally carries the
outcome of the external `save_to_csv` call (`io.rs`, not under `src/`),
modelled as an oracle bit, since the loop only branches on that outcome. -/
inductive GuiEvent where
  | SetRawTrafficOptions (opt : RawTrafficOptions)
  | SetBufferSize (s : Nat)
  | SetNames (names : List String)
  | SaveCSV (csv_options : FileOptions) (saveOk : Bool)
  | SetGuiWindow (window : GuiWindows)
  | Clear
  deriving DecidableEq, Repr

/-- The mutable state of `main_thread`: the shared store plus the loop's
local variables (`raw_traffic_options`, `failed_format_counter`,
`buffer_size`, `gui_window`). -/
structure LoopState where
  data : DataContainer
  raw_traffic_options : RawTrafficOptions
  failed_format_counter : Nat
  buffer_size : Nat
  gui_window : GuiWindows
  deriving DecidableEq, Repr

/-- The `while len > cap { remove(0) }` eviction from `main_thread`:
repeatedly drop the front element until the length is at most `cap`,
i.e. drop the first `l.length - cap` elements. -/
def evict (cap : Nat) (l : List α) : List α :=
  l.drop (l.length - cap)

/-- The `GuiEvent` arm of the loop body of `main_thread` (the
Control-Event Applier): returns the new state and the emitted log
messages. -/
def applyGuiEvent (s : LoopState) (e : GuiEvent) : LoopState × List Print :=
  match e with
  | GuiEvent.SetRawTrafficOptions opt => ({ s with raw_traffic_options := opt }, [])
  | GuiEvent.SetNames names => ({ s with data := { s.data with names := names } }, [])
  | GuiEvent.SaveCSV csv_options saveOk =>
    if saveOk then
      (s, [Print.Ok ("saved data file to ".toList ++ csv_options.file_path)])
    else
      (s, [Print.Error ("failed to save file to ".toList ++ csv_options.file_path)])
  | GuiEvent.Clear => ({ s with data := DataContainer.default, failed_format_counter := 0 }, [])
  | GuiEvent.SetBufferSize n => ({ s with buffer_size := n }, [])
  | GuiEvent.SetGuiWindow w => ({ s with gui_window := w }, [])

/-- The per-event store side effect of a decoded `QCMEvent` in
`main_thread`: protocol "start" events overwrite the channel names with
the fixed label set of the measurement kind and force
`failed_format_counter` to 20; all other events leave the state alone. -/
def applyQcmEvent (s : LoopState) (ev : QCMEvent) : LoopState :=
  match ev with
  | QCMEvent.BiasDetectStart =>
    { s with data := { s.data with names := ["Cur. Bias", "Avg. Bias"] },
             failed_format_counter := 20 }
  | QCMEvent.PhaseBaseDetectStart =>
    { s with data := { s.data with names := ["Cur. Phase", "Avg. Phase", "Cur. Amp"] },
             failed_format_counter := 20 }
  | QCMEvent.ShotIQStart _ =>
    { s with data := { s.data with names := ["Freq.", "G Resp.", "B Resp."] },
             failed_format_counter := 20 }
  | QCMEvent.RealtimeIQStart _ =>
    { s with data := { s.data with names := ["Freq.", "Resp."] },
             failed_format_counter := 20 }
  | QCMEvent.TrackStart _ =>
    { s with data := { s.data with names := ["Cur. Reson. Freq.", "Cur. B Resp."] },
             failed_format_counter := 20 }
  | QCMEvent.MultiParamsStart _ =>
    { s with data := { s.data with names := ["Cur. Reson. Freq.", "Max. G Resp.", "Q Factor"] },
             failed_format_counter := 20 }
  | _ => s

/-- The raw-traffic retention step at the head of the data-line arm of
`main_thread`: when enabled, push the packet and keep only the newest
`max_len` entries. -/
def rtUpdate (s : LoopState) (p : Packet) : DataContainer :=
  if s.raw_traffic_options.enable then
    { s.data with
      raw_traffic := evict s.raw_traffic_options.max_len (s.data.raw_traffic ++ [p]) }
  else s.data

/-- The data-line arm of `main_thread` (raw-traffic retention, then the
Schema Manager's reset / accept / tolerate policy). `recordOk` is the
outcome of the Recording Relay's channel send, whose `Result` the code
discards with `unwrap_or_default()`; the returned `List RecordData` holds
the samples actually delivered to the recording collaborator. -/
def processDataLine (recordOk : Bool) (s : LoopState) (p : Packet) :
    LoopState × List Print × List QCMEvent × List RecordData :=
  let data := rtUpdate s p
  let split_data := split p.payload
  if data.dataset = [] ∨ s.failed_format_counter > 10
      ∨ ((data.dataset.head?).getD []).length ≠ data.time.length then
    -- resetting dataset
    ({ s with
        data := { data with
          time := [],
          absolute_time := [],
          dataset := List.replicate (max split_data.length 1) [],
          names :=
            if data.names.length ≠ split_data.length then
              (List.range (max split_data.length 1)).map (fun i => "Column " ++ toString i)
            else data.names },
        failed_format_counter := 0 }, [], [], [])
  else if split_data.length = data.dataset.length then
    -- appending data
    ({ s with
        data := { data with
          dataset := (data.dataset.zip split_data).map
            (fun pr => evict s.buffer_size (pr.1 ++ [pr.2])),
          time := evict s.buffer_size (data.time ++ [p.relative_time]),
          absolute_time := evict s.buffer_size (data.absolute_time ++ [p.absolute_time]) },
        failed_format_counter := 0 }, [], [],
      if recordOk then [{ time := p.absolute_time, datas := split_data }] else [])
  else
    -- not same length
    ({ s with data := data, failed_format_counter := s.failed_format_counter + 1 }, [], [], [])

/-- The `Packet` arm of the loop body of `main_thread`: classify the line
by its first character (`#` → Debug log, `$` → command decoding gated by
the display window, otherwise data), returning the new state, the emitted
log messages, the forwarded `QCMEvent`s and the delivered records. -/
def processPacket (recordOk : Bool) (s : LoopState) (p : Packet) :
    LoopState × List Print × List QCMEvent × List RecordData :=
  if p.payload = [] then (s, [], [], [])
  else if p.payload.head? = some '#' then
    (s, [Print.Debug (p.payload.drop 1)], [], [])
  else if p.payload.head? = some '$' then
    if s.gui_window = GuiWindows.RawUART then (s, [], [], [])
    else
      let cmd_strs := splitOnChar '$' (p.payload.drop 1)
      match parse_qcm_event cmd_strs with
      | none => (s, [], [], [])
      | some event => (applyQcmEvent s event, [], [event], [])
  else processDataLine recordOk s p

/-- One tick's worth of input to `main_thread`: a `GuiEvent` from the
rendering thread or a `Packet` from the transport thread (the packet step
carries the Recording Relay send outcome for that tick). -/
inductive Step where
  | gui (e : GuiEvent)
  | packet (recordOk : Bool) (p : Packet)
  deriving DecidableEq, Repr

/-- State transition of one `Step` of the core loop. -/
def stepLoop (s : LoopState) : Step → LoopState
  | Step.gui e => (applyGuiEvent s e).1
  | Step.packet recordOk p => (processPacket recordOk s p).1

/-- Run the core loop over a finite list of steps. -/
def runLoop (s : LoopState) (steps : List Step) : LoopState :=
  steps.foldl stepLoop s

/-- State transition of one packet (ignoring emitted outputs). -/
def stepPacket (recordOk : Bool) (s : LoopState) (p : Packet) : LoopState :=
  (processPacket recordOk s p).1

/-- Run the core loop over a finite list of packets only. -/
def runPackets (recordOk : Bool) (s : LoopState) (ps : List Packet) : LoopState :=
  ps.foldl (stepPacket recordOk) s

/-- The initial state of `main_thread`: default store, raw-traffic options
and buffer size from their (external) defaults, zero mismatch counter, and
the `RawUART` display window. `rtDefault` and `bufDefault` stand for
`RawTrafficOptions::default()` and `PlotOptions::default().buffer_size`
(declared in `gui.rs`, not under `src/`), which the claims do not depend
on. -/
def initState (rtDefault : RawTrafficOptions) (bufDefault : Nat) : LoopState :=
  { data := DataContainer.default,
    raw_traffic_options := rtDefault,
    failed_format_counter := 0,
    buffer_size := bufDefault,
    gui_window := GuiWindows.RawUART }

/-- The store invariant of claim C1: every channel history has the same
length as `time`, and so does `absolute_time`. -/
def Inv (d : DataContainer) : Prop :=
  (∀ ch ∈ d.dataset, ch.length = d.time.length)
    ∧ d.absolute_time.length = d.time.length

instance (d : DataContainer) : Decidable (Inv d) := by
  unfold Inv; infer_instance

/-- The closed opcode vocabulary of `parse_qcm_event` (the ten match arms
of `src/main.rs`). -/
def qcmOpcodeVocab : List (List Char) :=
  ["BIASST".toList, "BIAS".toList, "PHAST".toList, "PHABASE".toList, "SHOTST".toList,
   "SHOTFIN".toList, "RTST".toList, "RTFIN".toList, "TRACKST".toList, "MULPARAST".toList]

/-- The opcodes whose argument is parsed as a `usize`. -/
def qcmUsizeArgOpcodes : List (List Char) :=
  ["SHOTST".toList, "SHOTFIN".toList, "RTST".toList, "RTFIN".toList, "TRACKST".toList,
   "MULPARAST".toList]

/-- The opcodes that require an argument token. -/
def qcmArgOpcodes : List (List Char) :=
  ["BIAS".toList, "PHABASE".toList] ++ qcmUsizeArgOpcodes

/-- A concrete packet for witnesses and counterexamples. -/
def examplePacket (payload : String) (t : Nat) : Packet :=
  { payload := payload.toList, relative_time := t, absolute_time := t + 100 }

/-- A concrete initial loop state (raw-traffic disabled, buffer size 4),
in the `RawUART` display window. -/
def exampleRawState : LoopState := initState { enable := false, max_len := 10 } 4

/-- The same state in the protocol-aware display window. -/
def exampleQcmState : LoopState := { exampleRawState with gui_window := GuiWindows.QCM }

/-- A concrete state in the protocol-aware window with one established
single-channel sample, ready to accept further width-1 lines. -/
def exampleAcceptState : LoopState :=
  { exampleQcmState with
    data := { names := ["Column 0"], time := [1], absolute_time := [101],
              dataset := [[5]], raw_traffic := [] } }

/-- The concrete run of claim C2's counterexample: establish width 1
(`"1"` resets the empty store, `"2"` is accepted), then ten consecutive
width-2 lines, and then an eleventh consecutive mismatching line. -/
def c2Stream : List Packet :=
  examplePacket ("1") 1 :: examplePacket ("2") 2
    :: (List.range 11).map (fun i => examplePacket ("1,2") (3 + i))

@[simp] lemma rtUpdate_dataset (s : LoopState) (p : Packet) :
    (rtUpdate s p).dataset = s.data.dataset := by
  rw [rtUpdate]; split <;> rfl

@[simp] lemma rtUpdate_time (s : LoopState) (p : Packet) :
    (rtUpdate s p).time = s.data.time := by
  rw [rtUpdate]; split <;> rfl

@[simp] lemma rtUpdate_absolute_time (s : LoopState) (p : Packet) :
    (rtUpdate s p).absolute_time = s.data.absolute_time := by
  rw [rtUpdate]; split <;> rfl

@[simp] lemma rtUpdate_names (s : LoopState) (p : Packet) :
    (rtUpdate s p).names = s.data.names := by
  rw [rtUpdate]; split <;> rfl

lemma evict_length (cap : Nat) (l : List α) : (evict cap l).length = min cap l.length := by
  simp [evict]
  omega

lemma splitOnChar_ne_nil (sep : Char) (l : List Char) : splitOnChar sep l ≠ [] := by
  induction l with
  | nil => simp [splitOnChar]
  | cons c cs ih =>
    rw [splitOnChar]
    rcases h : splitOnChar sep cs with _ | ⟨t, ts⟩
    · exact absurd h ih
    · rcases hc : decide (c = sep) with _ | _ <;> simp

lemma inv_processDataLine (ok : Bool) (s : LoopState) (p : Packet) (h : Inv s.data) :
    Inv (processDataLine ok s p).1.data := by
  obtain ⟨h1, h2⟩ := h
  simp only [processDataLine, rtUpdate_dataset, rtUpdate_time]
  split
  · refine ⟨?_, by simp⟩
    intro ch hch
    simp only [List.mem_replicate] at hch
    simp [hch.2]
  · split
    · refine ⟨?_, ?_⟩
      · intro ch hch
        simp only [List.mem_map] at hch
        obtain ⟨pr, hpr, hch⟩ := hch
        have hmem := List.of_mem_zip hpr
        rw [← hch]
        rw [evict_length, evict_length]
        simp [h1 pr.1 hmem.1, h2]
      · rw [evict_length, evict_length]
        simp [h2]
    · exact ⟨by simpa using h1, by simpa using h2⟩

lemma inv_stepLoop (s : LoopState) (st : Step) (h : Inv s.data) :
    Inv (stepLoop s st).data := by
  cases st with
  | gui e =>
    cases e with
    | SaveCSV o ok =>
      rcases ok with _ | _ <;> simp [stepLoop, applyGuiEvent, h]
    | Clear => simp [stepLoop, applyGuiEvent, Inv, DataContainer.default]
    | SetNames names => exact ⟨h.1, h.2⟩
    | SetRawTrafficOptions o => exact h
    | SetBufferSize n => exact h
    | SetGuiWindow w => exact h
  | packet ok p =>
    rw [stepLoop, processPacket]
    split
    · exact h
    · split
      · exact h
      · split
        · split
          · exact h
          · rcases hev : parse_qcm_event (splitOnChar '$' (List.drop 1 p.payload)) with _ | event
            · simp only [hev]; exact h
            · simp only [hev]
              cases event <;> simpa [applyQcmEvent] using h
        · exact inv_processDataLine ok s p h

lemma inv_runLoop (steps : List Step) (s : LoopState) (h : Inv s.data) :
    Inv (runLoop s steps).data := by
  induction steps generalizing s with
  | nil => exact h
  | cons st rest ih => exact ih (stepLoop s st) (inv_stepLoop s st h)

lemma evict_of_le {n : Nat} {l : List α} (h : l.length ≤ n) : evict n l = l := by
  rw [evict, Nat.sub_eq_zero_of_le h, List.drop_zero]

lemma evict_eq_reverse_take (n : Nat) (l : List α) :
    evict n l = (l.reverse.take n).reverse := by
  rw [evict, List.reverse_take, List.reverse_reverse, List.length_reverse]

lemma evict_append_evict (n : Nat) (l m : List α) :
    evict n (evict n l ++ m) = evict n (l ++ m) := by
  rw [evict_eq_reverse_take n l, evict_eq_reverse_take, evict_eq_reverse_take n (l ++ m)]
  rw [List.reverse_append, List.reverse_reverse, List.reverse_append]
  congr 1
  rw [List.take_append_eq_append_take, List.take_append_eq_append_take, List.take_take]
  congr 1
  exact congrArg (fun k => List.take k l.reverse) (min_eq_left (Nat.sub_le n m.reverse.length))

lemma getD_map_zip (f : α × β → γ) (dγ : γ) (dα : α) (dβ : β) :
    ∀ (l : List α) (v : List β) (i : Nat), i < l.length → i < v.length →
      ((l.zip v).map f).getD i dγ = f (l.getD i dα, v.getD i dβ) := by
  intro l
  induction l with
  | nil => intro v i h; simp at h
  | cons a t ih =>
    intro v i h1 h2
    cases v with
    | nil => simp at h2
    | cons b w =>
      cases i with
      | zero => simp
      | succ j =>
        simp only [List.zip_cons_cons, List.map_cons, List.getD_cons_succ]
        exact ih w j (by simpa using h1) (by simpa using h2)

lemma foldl_append_eq_flatMap (f : α → List β) :
    ∀ (ls : List α) (acc : List β),
      ls.foldl (fun acc s => acc ++ f s) acc = acc ++ ls.flatMap f := by
  intro ls
  induction ls with
  | nil => intro acc; simp
  | cons a t ih => intro acc; simp [ih, List.flatMap_cons, List.append_assoc]

lemma flatMap_optionToList (f : α → Option β) (l : List α) :
    l.flatMap (fun x => (f x).toList) = l.filterMap f := by
  induction l with
  | nil => rfl
  | cons a t ih =>
    cases h : f a <;> simp [List.flatMap_cons, h, ih, List.filterMap_cons]

lemma processPacket_data (ok : Bool) (s : LoopState) (p : Packet)
    (hne : p.payload ≠ []) (hn1 : p.payload.head? ≠ some '#')
    (hn2 : p.payload.head? ≠ some '$') :
    processPacket ok s p = processDataLine ok s p := by
  rw [processPacket]
  simp [hne, hn1, hn2]

lemma tolerate_step (ok : Bool) (s : LoopState) (p : Packet)
    (hne : p.payload ≠ []) (hn1 : p.payload.head? ≠ some '#')
    (hn2 : p.payload.head? ≠ some '$')
    (hds : s.data.dataset ≠ []) (hc : s.failed_format_counter ≤ 10)
    (hcons : ((s.data.dataset.head?).getD []).length = s.data.time.length)
    (hw : (split p.payload).length ≠ s.data.dataset.length) :
    processPacket ok s p
      = ({ s with
            data := rtUpdate s p,
            failed_format_counter := s.failed_format_counter + 1 }, [], [], []) := by
  rw [processPacket_data ok s p hne hn1 hn2]
  simp only [processDataLine, rtUpdate_dataset, rtUpdate_time]
  rw [if_neg, if_neg hw]
  push_neg
  exact ⟨hds, by omega, hcons⟩

lemma reset_step (ok : Bool) (s : LoopState) (p : Packet)
    (hne : p.payload ≠ []) (hn1 : p.payload.head? ≠ some '#')
    (hn2 : p.payload.head? ≠ some '$')
    (hr : s.data.dataset = [] ∨ s.failed_format_counter > 10
        ∨ ((s.data.dataset.head?).getD []).length ≠ s.data.time.length) :
    processPacket ok s p
      = ({ s with
            data := { rtUpdate s p with
              time := [], absolute_time := [],
              dataset := List.replicate (max (split p.payload).length 1) [],
              names :=
                if s.data.names.length ≠ (split p.payload).length then
                  (List.range (max (split p.payload).length 1)).map
                    (fun i => "Column " ++ toString i)
                else s.data.names },
            failed_format_counter := 0 }, [], [], []) := by
  rw [processPacket_data ok s p hne hn1 hn2]
  simp only [processDataLine, rtUpdate_dataset, rtUpdate_time, rtUpdate_names]
  rw [if_pos hr]

lemma accept_step (ok : Bool) (s : LoopState) (p : Packet)
    (hne : p.payload ≠ []) (hn1 : p.payload.head? ≠ some '#')
    (hn2 : p.payload.head? ≠ some '$')
    (hds : s.data.dataset ≠ []) (hc : s.failed_format_counter ≤ 10)
    (hcons : ((s.data.dataset.head?).getD []).length = s.data.time.length)
    (hw : (split p.payload).length = s.data.dataset.length) :
    processPacket ok s p
      = ({ s with
            data := { rtUpdate s p with
              dataset := (s.data.dataset.zip (split p.payload)).map
                (fun pr => evict s.buffer_size (pr.1 ++ [pr.2])),
              time := evict s.buffer_size (s.data.time ++ [p.relative_time]),
              absolute_time :=
                evict s.buffer_size (s.data.absolute_time ++ [p.absolute_time]) },
            failed_format_counter := 0 }, [], [],
          if ok then [{ time := p.absolute_time, datas := split p.payload }] else []) := by
  rw [processPacket_data ok s p hne hn1 hn2]
  simp only [processDataLine, rtUpdate_dataset, rtUpdate_time, rtUpdate_absolute_time]
  rw [if_neg, if_pos hw]
  push_neg
  exact ⟨hds, by omega, hcons⟩

/-- C1: after any finite sequence of packets and interleaved control
commands processed by the core loop from its initial state, every channel
sequence in `dataset` has the same length as `time`, and so does
`absolute_time`. -/
theorem C1_dataset_time_length_invariant
    (rtDefault : RawTrafficOptions) (bufDefault : Nat) (steps : List Step) :
    Inv (runLoop (initState rtDefault bufDefault) steps).data :=
  inv_runLoop steps _ (by simp [initState, Inv, DataContainer.default])

/-- C5: the numeric payload parser splits the line on `':'` into groups,
each group on `','`, trims every token, and keeps in order exactly the
tokens that parse as floats, dropping failing tokens without failing the
line; in particular `"1,2:3,4"` yields `[1.0, 2.0, 3.0, 4.0]`,
establishing width 4. -/
theorem C5_split_semantics (payload : List Char) :
    split payload
      = ((splitOnChar ':' payload).flatMap (splitOnChar ',')).filterMap
          (fun t => parseF64 (trim t))
    ∧ split "1,2:3,4".toList = [1, 2, 3, 4]
    ∧ (split "1,2:3,4".toList).length = 4 := by
  refine ⟨?_, by decide, by decide⟩
  rw [split]
  rw [foldl_append_eq_flatMap]
  rw [List.nil_append, ← flatMap_optionToList]
  simp [List.flatMap_map, Function.comp]

/-- C9: a packet whose payload is `"#hello"` produces exactly one Debug
log entry with text `hello` and leaves the whole store (dataset, names,
time, absolute_time, raw_traffic) and the loop state unchanged, emitting
no event and no record. -/
theorem C9_debug_packet (ok : Bool) (s : LoopState) (rt a_t : Nat) :
    processPacket ok s { payload := "#hello".toList, relative_time := rt, absolute_time := a_t }
      = (s, [Print.Debug "hello".toList], [], []) := by
  rfl

/-- C10: for every packet payload, splitting the remainder after `'$'` on
`'$'` yields a non-empty token vector, so the unchecked `cmd_strs[0]`
access inside `parse_qcm_event` is always in bounds at its only call
site, and the decoder is evaluated on a `t :: ts` shape. -/
theorem C10_command_tokens_nonempty (p : Packet) :
    ∃ t ts, splitOnChar '$' (p.payload.drop 1) = t :: ts
      ∧ parse_qcm_event (splitOnChar '$' (p.payload.drop 1))
          = parse_qcm_event (t :: ts) := by
  obtain ⟨t, ts, h⟩ := List.exists_cons_of_ne_nil (splitOnChar_ne_nil '$' (p.payload.drop 1))
  exact ⟨t, ts, h, by rw [h]⟩

/-- C8: on an accepted data line, a failed Recording Relay send is
swallowed: the resulting loop state is identical to the successful-send
state, with the sample's values appended to every channel and the
timestamps appended; no log message and no event are emitted, and the only
difference is that the record is not delivered. -/
theorem C8_record_send_failure_swallowed (s : LoopState) (p : Packet)
    (hne : p.payload ≠ []) (hn1 : p.payload.head? ≠ some '#')
    (hn2 : p.payload.head? ≠ some '$')
    (hds : s.data.dataset ≠ []) (hc : s.failed_format_counter ≤ 10)
    (hcons : ((s.data.dataset.head?).getD []).length = s.data.time.length)
    (hw : (split p.payload).length = s.data.dataset.length) :
    (processPacket false s p).1 = (processPacket true s p).1
    ∧ (processPacket false s p).2.1 = []
    ∧ (processPacket false s p).2.2.1 = []
    ∧ (processPacket false s p).2.2.2 = []
    ∧ (processPacket true s p).2.2.2 = [{ time := p.absolute_time, datas := split p.payload }]
    ∧ (processPacket false s p).1.data.time
        = evict s.buffer_size (s.data.time ++ [p.relative_time])
    ∧ (processPacket false s p).1.data.absolute_time
        = evict s.buffer_size (s.data.absolute_time ++ [p.absolute_time])
    ∧ (processPacket false s p).1.data.dataset
        = (s.data.dataset.zip (split p.payload)).map
            (fun pr => evict s.buffer_size (pr.1 ++ [pr.2])) := by
  rw [accept_step false s p hne hn1 hn2 hds hc hcons hw,
    accept_step true s p hne hn1 hn2 hds hc hcons hw]
  simp

/-- C8 witness: a concrete accepted width-1 line with a failed send is
still appended. -/
theorem C8_witness :
    (processPacket false exampleAcceptState (examplePacket ("7") 2)).1
        = (processPacket true exampleAcceptState (examplePacket ("7") 2)).1
    ∧ (processPacket false exampleAcceptState (examplePacket ("7") 2)).1.data.dataset
        = [[5, 7]] := by
  have h := C8_record_send_failure_swallowed exampleAcceptState (examplePacket ("7") 2)
    (by decide) (by decide) (by decide) (by decide) (by decide) (by decide) (by decide)
  refine ⟨h.1, ?_⟩
  rw [h.2.2.2.2.2.2.2]
  decide

/-- C6 counterexample: in the raw-passthrough window (`RawUART`), the
command line `"$1,2"` is dropped with no state change and no outputs,
whereas treating it as an ordinary data attempt (the data-line arm on the
same payload) would have mutated the store — so the claim's "treated as an
ordinary data attempt" is false at this input. -/
theorem C6_counterexample :
    (processPacket true exampleRawState (examplePacket ("$1,2") 1)).1 = exampleRawState
    ∧ (processPacket true exampleRawState (examplePacket ("$1,2") 1)).2 = ([], [], [])
    ∧ (processDataLine true exampleRawState (examplePacket ("$1,2") 1)).1.data
        ≠ exampleRawState.data := by
  decide

/-- C6 (amended): in the raw-passthrough window, a line beginning with
`'$'` is not passed to the Command Protocol Decoder (the mode flag is
checked first) and is skipped entirely: no state change, no log message,
no event, no record. -/
theorem C6_rawuart_gate_drops_command_lines (ok : Bool) (s : LoopState) (p : Packet)
    (hwin : s.gui_window = GuiWindows.RawUART) (hp : p.payload.head? = some '$') :
    processPacket ok s p = (s, [], [], []) := by
  have hne : p.payload ≠ [] := by
    intro h
    rw [h] at hp
    simp at hp
  rw [processPacket]
  simp [hne, hp, hwin]

/-- C6 witness: the concrete command line `"$BIASST"` in the `RawUART`
window is skipped. -/
theorem C6_witness :
    processPacket true exampleRawState (examplePacket ("$BIASST") 1)
      = (exampleRawState, [], [], []) :=
  C6_rawuart_gate_drops_command_lines true exampleRawState (examplePacket ("$BIASST") 1)
    (by decide) (by decide)

/-- C7: (i) a command token list whose opcode is outside the fixed
vocabulary decodes to no event; (ii) an argument-requiring opcode with no
argument token decodes to no event; (iii) an argument token that fails
its numeric parse decodes to no event; and (iv) whenever the decoder
yields no event on a command line in a protocol-aware window, the packet
is dropped silently: state unchanged, no log message, no event, no
record. -/
theorem C7_malformed_commands_dropped :
    (∀ t ts, t ∉ qcmOpcodeVocab → parse_qcm_event (t :: ts) = none)
    ∧ (∀ t ts, t ∈ qcmArgOpcodes → ts.head? = none → parse_qcm_event (t :: ts) = none)
    ∧ (∀ t ts a, ts.head? = some a →
        (t = "BIAS".toList → parseI32 (trim a) = none → parse_qcm_event (t :: ts) = none)
        ∧ (t = "PHABASE".toList → parseF64 (trim a) = none → parse_qcm_event (t :: ts) = none)
        ∧ (t ∈ qcmUsizeArgOpcodes → parseUsize (trim a) = none →
            parse_qcm_event (t :: ts) = none))
    ∧ (∀ (ok : Bool) (s : LoopState) (p : Packet), p.payload.head? = some '$' →
        s.gui_window ≠ GuiWindows.RawUART →
        parse_qcm_event (splitOnChar '$' (p.payload.drop 1)) = none →
        processPacket ok s p = (s, [], [], [])) := by
  refine ⟨?_, ?_, ?_, ?_⟩
  · intro t ts h
    simp only [qcmOpcodeVocab, List.mem_cons, List.not_mem_nil, or_false, not_or] at h
    obtain ⟨n1, n2, n3, n4, n5, n6, n7, n8, n9, n10⟩ := h
    rw [parse_qcm_event, if_neg n1, if_neg n2, if_neg n3, if_neg n4, if_neg n5, if_neg n6,
      if_neg n7, if_neg n8, if_neg n9, if_neg n10]
  · intro t ts hmem hts
    simp only [qcmArgOpcodes, qcmUsizeArgOpcodes, List.cons_append, List.nil_append,
      List.mem_cons, List.not_mem_nil, or_false] at hmem
    rcases hmem with rfl | rfl | rfl | rfl | rfl | rfl | rfl | rfl <;>
      simp [parse_qcm_event, hts]
  · intro t ts a hts
    refine ⟨?_, ?_, ?_⟩
    · rintro rfl hpar
      simp [parse_qcm_event, hts, hpar]
    · rintro rfl hpar
      simp [parse_qcm_event, hts, hpar]
    · intro hmem hpar
      simp only [qcmUsizeArgOpcodes, List.mem_cons, List.not_mem_nil, or_false] at hmem
      rcases hmem with rfl | rfl | rfl | rfl | rfl | rfl <;>
        simp [parse_qcm_event, hts, hpar]
  · intro ok s p hp hwin hparse
    have hne : p.payload ≠ [] := by
      intro h
      rw [h] at hp
      simp at hp
    simp only [List.drop_one] at hparse
    rw [processPacket]
    simp [hne, hp, hwin, hparse]

/-- C7 witness: the unknown opcode `"$FOO"` and the malformed
`"$BIAS$xy"` are decoded to no event and dropped with no state change. -/
theorem C7_witness :
    parse_qcm_event ["FOO".toList] = none
    ∧ parse_qcm_event ["BIAS".toList, "xy".toList] = none
    ∧ processPacket true exampleQcmState (examplePacket ("$FOO") 1)
        = (exampleQcmState, [], [], []) := by
  refine ⟨?_, ?_, ?_⟩
  · exact C7_malformed_commands_dropped.1 ("FOO".toList) [] (by decide)
  · exact (C7_malformed_commands_dropped.2.2.1 ("BIAS".toList) ["xy".toList]
      ("xy".toList) rfl).1 rfl (by decide)
  · exact C7_malformed_commands_dropped.2.2.2 true exampleQcmState
      (examplePacket ("$FOO") 1) (by decide) (by decide) (by decide)

/-- C4: in a protocol-aware window, `"$BIASST"` then `"$BIAS$42"` yield a
`BiasDetectStart` event followed by a `BiasResult 42` event; the start
event sets the channel names to the two-label bias set and forces the
mismatch counter to 20 (above the threshold 10) without touching the
histories, the result event changes nothing, and the next data line then
takes the reset branch: it is not accepted, and all histories and `time`
are empty immediately after it. -/
theorem C4_bias_command_sequence (ok1 ok2 : Bool) (s : LoopState) (p1 p2 : Packet)
    (hwin : s.gui_window ≠ GuiWindows.RawUART)
    (h1 : p1.payload = "$BIASST".toList) (h2 : p2.payload = "$BIAS$42".toList) :
    (processPacket ok1 s p1).2.2.1 = [QCMEvent.BiasDetectStart]
    ∧ (processPacket ok1 s p1).1.data.names = ["Cur. Bias", "Avg. Bias"]
    ∧ (processPacket ok1 s p1).1.failed_format_counter = 20
    ∧ (processPacket ok1 s p1).1.data.dataset = s.data.dataset
    ∧ (processPacket ok1 s p1).1.data.time = s.data.time
    ∧ (processPacket ok2 (processPacket ok1 s p1).1 p2).2.2.1 = [QCMEvent.BiasResult 42]
    ∧ (processPacket ok2 (processPacket ok1 s p1).1 p2).1 = (processPacket ok1 s p1).1
    ∧ (∀ (ok3 : Bool) (p3 : Packet), p3.payload ≠ [] → p3.payload.head? ≠ some '#' →
        p3.payload.head? ≠ some '$' →
        (processPacket ok3 (processPacket ok1 s p1).1 p3).1.data.time = []
        ∧ (processPacket ok3 (processPacket ok1 s p1).1 p3).1.data.absolute_time = []
        ∧ (processPacket ok3 (processPacket ok1 s p1).1 p3).1.data.dataset
            = List.replicate (max (split p3.payload).length 1) []
        ∧ (processPacket ok3 (processPacket ok1 s p1).1 p3).2.2.2 = []) := by
  obtain ⟨pl1, t1, a1⟩ := p1
  obtain ⟨pl2, t2, a2⟩ := p2
  simp only at h1 h2
  subst h1
  subst h2
  have hstep1 : processPacket ok1 s ⟨"$BIASST".toList, t1, a1⟩
      = (applyQcmEvent s QCMEvent.BiasDetectStart, [], [QCMEvent.BiasDetectStart], []) := by
    have hA : ¬(("$BIASST".toList : List Char) = []) := by decide
    have hB : ¬(("$BIASST".toList : List Char).head? = some '#') := by decide
    have hC : ("$BIASST".toList : List Char).head? = some '$' := by decide
    rw [processPacket]
    dsimp only
    rw [if_neg hA, if_neg hB, if_pos hC, if_neg hwin]
    simp only [show parse_qcm_event (splitOnChar '$' (List.drop 1 ("$BIASST".toList)))
        = some QCMEvent.BiasDetectStart from by decide]
  rw [hstep1]
  have hwin1 : (applyQcmEvent s QCMEvent.BiasDetectStart).gui_window ≠ GuiWindows.RawUART := by
    simpa [applyQcmEvent] using hwin
  have hstep2 : processPacket ok2 (applyQcmEvent s QCMEvent.BiasDetectStart)
        ⟨"$BIAS$42".toList, t2, a2⟩
      = (applyQcmEvent (applyQcmEvent s QCMEvent.BiasDetectStart) (QCMEvent.BiasResult 42),
          [], [QCMEvent.BiasResult 42], []) := by
    have hA : ¬(("$BIAS$42".toList : List Char) = []) := by decide
    have hB : ¬(("$BIAS$42".toList : List Char).head? = some '#') := by decide
    have hC : ("$BIAS$42".toList : List Char).head? = some '$' := by decide
    rw [processPacket]
    dsimp only
    rw [if_neg hA, if_neg hB, if_pos hC, if_neg hwin1]
    simp only [show parse_qcm_event (splitOnChar '$' (List.drop 1 ("$BIAS$42".toList)))
        = some (QCMEvent.BiasResult 42) from by decide]
  rw [hstep2]
  refine ⟨by simp, by simp [applyQcmEvent], by simp [applyQcmEvent],
    by simp [applyQcmEvent], by simp [applyQcmEvent], by simp, by simp [applyQcmEvent], ?_⟩
  intro ok3 p3 hne3 hh3 hd3
  have hr : (applyQcmEvent s QCMEvent.BiasDetectStart).failed_format_counter > 10 := by
    simp [applyQcmEvent]
  have hstep3 := reset_step ok3 (applyQcmEvent s QCMEvent.BiasDetectStart) p3
    hne3 hh3 hd3 (Or.inr (Or.inl hr))
  rw [hstep3]
  simp

/-- C4 witness: the concrete run from a protocol-aware state. -/
theorem C4_witness :
    (processPacket true exampleQcmState (examplePacket ("$BIASST") 1)).2.2.1
        = [QCMEvent.BiasDetectStart]
    ∧ (processPacket true exampleQcmState (examplePacket ("$BIASST") 1)).1.data.names
        = ["Cur. Bias", "Avg. Bias"]
    ∧ (processPacket true
          (processPacket true exampleQcmState (examplePacket ("$BIASST") 1)).1
          (examplePacket ("$BIAS$42") 2)).2.2.1 = [QCMEvent.BiasResult 42]
    ∧ (processPacket true
          (processPacket true exampleQcmState (examplePacket ("$BIASST") 1)).1
          (examplePacket ("3,4") 3)).1.data.dataset = [[], []] := by
  have h := C4_bias_command_sequence true true exampleQcmState
    (examplePacket ("$BIASST") 1) (examplePacket ("$BIAS$42") 2) (by decide) rfl rfl
  refine ⟨h.1, h.2.1, h.2.2.2.2.2.1, ?_⟩
  have h3 := h.2.2.2.2.2.2.2 true (examplePacket ("3,4") 3) (by decide) (by decide) (by decide)
  rw [h3.2.2.1]
  decide

lemma tolerate_run (ok : Bool) (ps : List Packet) : ∀ (s : LoopState),
    s.data.dataset ≠ [] →
    ((s.data.dataset.head?).getD []).length = s.data.time.length →
    s.failed_format_counter + ps.length ≤ 11 →
    (∀ p ∈ ps, p.payload ≠ [] ∧ p.payload.head? ≠ some '#' ∧ p.payload.head? ≠ some '$'
        ∧ (split p.payload).length ≠ s.data.dataset.length) →
    (runPackets ok s ps).data.dataset = s.data.dataset
    ∧ (runPackets ok s ps).data.time = s.data.time
    ∧ (runPackets ok s ps).data.absolute_time = s.data.absolute_time
    ∧ (runPackets ok s ps).data.names = s.data.names
    ∧ (runPackets ok s ps).failed_format_counter = s.failed_format_counter + ps.length := by
  induction ps with
  | nil =>
    intro s _ _ _ _
    exact ⟨rfl, rfl, rfl, rfl, rfl⟩
  | cons p rest ih =>
    intro s h1 h2 h3 h4
    obtain ⟨hne, hn1, hn2, hw⟩ := h4 p (List.mem_cons_self p rest)
    have hc : s.failed_format_counter ≤ 10 := by
      simp only [List.length_cons] at h3
      omega
    have hsp : stepPacket ok s p
        = { s with
            data := rtUpdate s p,
            failed_format_counter := s.failed_format_counter + 1 } := by
      rw [stepPacket, tolerate_step ok s p hne hn1 hn2 h1 hc h2 hw]
    have hrun : runPackets ok s (p :: rest) = runPackets ok (stepPacket ok s p) rest := rfl
    rw [hrun, hsp]
    have ih' := ih
      { s with
        data := rtUpdate s p,
        failed_format_counter := s.failed_format_counter + 1 }
      (by simpa using h1) (by simpa using h2)
      (by simp only [List.length_cons] at h3; simpa using by omega)
      (by intro q hq
          have := h4 q (List.mem_cons_of_mem p hq)
          simpa using this)
    obtain ⟨i1, i2, i3, i4, i5⟩ := ih'
    refine ⟨?_, ?_, ?_, ?_, ?_⟩
    · rw [i1]; simp
    · rw [i2]; simp
    · rw [i3]; simp
    · rw [i4]; simp
    · rw [i5]
      simp only [List.length_cons]
      omega

/-- C2 counterexample: from the empty initial store, `"1"` resets to
width 1 and `"2"` is accepted; then ten consecutive width-2 lines `"1,2"`
are tolerated, and — contrary to the claim — the 11th consecutive
mismatching line still does not reset: the dataset still has width 1 with
its history intact, and the mismatch counter is 11. -/
theorem C2_counterexample :
    ¬ ((runPackets true exampleQcmState c2Stream).data.dataset.length = 2
        ∧ (runPackets true exampleQcmState c2Stream).data.time = [])
    ∧ (runPackets true exampleQcmState c2Stream).data.dataset = [[2]]
    ∧ (runPackets true exampleQcmState c2Stream).data.time = [2]
    ∧ (runPackets true exampleQcmState c2Stream).failed_format_counter = 11 := by
  decide

/-- C2 (amended): with the mismatch counter at 0, 11 consecutive data
lines whose width differs from the current dataset width are all
tolerated (histories, names and width unchanged, counter rising to 11),
and processing the 12th consecutive such line triggers the reset: all
per-channel histories and `time` (and `absolute_time`) are empty
immediately after it, the dataset is reallocated to that line's width
(at least 1), and the counter clears. -/
theorem C2_schema_reset_after_twelfth (ok : Bool) (s : LoopState) (ps : List Packet) (q : Packet)
    (hds : s.data.dataset ≠ [])
    (hcons : ((s.data.dataset.head?).getD []).length = s.data.time.length)
    (hc : s.failed_format_counter = 0)
    (hlen : ps.length = 11)
    (hps : ∀ p ∈ ps, p.payload ≠ [] ∧ p.payload.head? ≠ some '#' ∧ p.payload.head? ≠ some '$'
        ∧ (split p.payload).length ≠ s.data.dataset.length)
    (hq1 : q.payload ≠ []) (hq2 : q.payload.head? ≠ some '#')
    (hq3 : q.payload.head? ≠ some '$') :
    (runPackets ok s ps).data.dataset = s.data.dataset
    ∧ (runPackets ok s ps).data.time = s.data.time
    ∧ (runPackets ok s ps).failed_format_counter = 11
    ∧ (stepPacket ok (runPackets ok s ps) q).data.time = []
    ∧ (stepPacket ok (runPackets ok s ps) q).data.absolute_time = []
    ∧ (stepPacket ok (runPackets ok s ps) q).data.dataset
        = List.replicate (max (split q.payload).length 1) []
    ∧ (stepPacket ok (runPackets ok s ps) q).failed_format_counter = 0 := by
  obtain ⟨hd, ht, _, _, hcnt⟩ := tolerate_run ok ps s hds hcons (by omega) hps
  have hcnt11 : (runPackets ok s ps).failed_format_counter = 11 := by
    rw [hcnt, hc, hlen]
  have hr : (runPackets ok s ps).failed_format_counter > 10 := by
    rw [hcnt11]
    omega
  have hsq : stepPacket ok (runPackets ok s ps) q
      = ({ runPackets ok s ps with
            data := { rtUpdate (runPackets ok s ps) q with
              time := [], absolute_time := [],
              dataset := List.replicate (max (split q.payload).length 1) [],
              names :=
                if (runPackets ok s ps).data.names.length ≠ (split q.payload).length then
                  (List.range (max (split q.payload).length 1)).map
                    (fun i => "Column " ++ toString i)
                else (runPackets ok s ps).data.names },
            failed_format_counter := 0 }) := by
    rw [stepPacket, reset_step ok (runPackets ok s ps) q hq1 hq2 hq3 (Or.inr (Or.inl hr))]
  refine ⟨hd, ht, hcnt11, ?_, ?_, ?_, ?_⟩ <;> rw [hsq]

/-- C2 witness for the amended claim: the concrete 11-tolerated-then-reset
run. -/
theorem C2_witness :
    (stepPacket true (runPackets true
          (runPackets true exampleQcmState (List.take 2 c2Stream))
          (c2Stream.drop 2)) (examplePacket ("1,2") 99)).data.time = []
    ∧ (stepPacket true (runPackets true
          (runPackets true exampleQcmState (List.take 2 c2Stream))
          (c2Stream.drop 2)) (examplePacket ("1,2") 99)).data.dataset = [[], []] := by
  have h := C2_schema_reset_after_twelfth true
    (runPackets true exampleQcmState (List.take 2 c2Stream))
    (c2Stream.drop 2) (examplePacket ("1,2") 99)
    (by decide) (by decide) (by decide) (by decide) (by decide)
    (by decide) (by decide) (by decide)
  refine ⟨h.2.2.2.1, ?_⟩
  rw [h.2.2.2.2.2.1]
  decide

lemma evict_append_of_le (n : Nat) (l m : List α) (h : n ≤ m.length) :
    evict n (l ++ m) = m.drop (m.length - n) := by
  rw [evict, List.length_append]
  have he : l.length + m.length - n = l.length + (m.length - n) := by omega
  rw [he, List.drop_append]

lemma head_getD_length (d : DataContainer) (hds : d.dataset ≠ [])
    (hinv : ∀ ch ∈ d.dataset, ch.length = d.time.length) :
    ((d.dataset.head?).getD []).length = d.time.length := by
  obtain ⟨a, t, he⟩ := List.exists_cons_of_ne_nil hds
  rw [he]
  exact hinv a (by rw [he]; exact List.mem_cons_self a t)

lemma accept_step_facts (ok : Bool) (s : LoopState) (p : Packet)
    (hne : p.payload ≠ []) (hn1 : p.payload.head? ≠ some '#')
    (hn2 : p.payload.head? ≠ some '$')
    (hds : s.data.dataset ≠ [])
    (hinv : ∀ ch ∈ s.data.dataset, ch.length = s.data.time.length)
    (habs : s.data.absolute_time.length = s.data.time.length)
    (hc : s.failed_format_counter ≤ 10)
    (hw : (split p.payload).length = s.data.dataset.length) :
    (stepPacket ok s p).buffer_size = s.buffer_size
    ∧ (stepPacket ok s p).failed_format_counter = 0
    ∧ (stepPacket ok s p).data.dataset.length = s.data.dataset.length
    ∧ (stepPacket ok s p).data.time
        = evict s.buffer_size (s.data.time ++ [p.relative_time])
    ∧ (stepPacket ok s p).data.absolute_time
        = evict s.buffer_size (s.data.absolute_time ++ [p.absolute_time])
    ∧ (∀ i, i < s.data.dataset.length →
        (stepPacket ok s p).data.dataset.getD i []
          = evict s.buffer_size (s.data.dataset.getD i [] ++ [(split p.payload).getD i 0]))
    ∧ (∀ ch ∈ (stepPacket ok s p).data.dataset,
        ch.length = (stepPacket ok s p).data.time.length)
    ∧ (stepPacket ok s p).data.dataset ≠ []
    ∧ (stepPacket ok s p).data.absolute_time.length = (stepPacket ok s p).data.time.length
    ∧ (stepPacket ok s p).data.time.length ≤ s.buffer_size := by
  have hcons := head_getD_length s.data hds hinv
  have hsp : stepPacket ok s p
      = ({ s with
            data := { rtUpdate s p with
              dataset := (s.data.dataset.zip (split p.payload)).map
                (fun pr => evict s.buffer_size (pr.1 ++ [pr.2])),
              time := evict s.buffer_size (s.data.time ++ [p.relative_time]),
              absolute_time :=
                evict s.buffer_size (s.data.absolute_time ++ [p.absolute_time]) },
            failed_format_counter := 0 }) := by
    rw [stepPacket, accept_step ok s p hne hn1 hn2 hds hc hcons hw]
  have hlen1 : ((s.data.dataset.zip (split p.payload)).map
      (fun pr => evict s.buffer_size (pr.1 ++ [pr.2]))).length = s.data.dataset.length := by
    rw [List.length_map, List.length_zip, hw]
    exact min_self _
  refine ⟨by rw [hsp], by rw [hsp], by rw [hsp]; exact hlen1, by rw [hsp], by rw [hsp],
    ?_, ?_, ?_, ?_, ?_⟩
  · intro i hi
    rw [hsp]
    exact getD_map_zip (fun pr => evict s.buffer_size (pr.1 ++ [pr.2])) [] [] 0
      s.data.dataset (split p.payload) i hi (by rw [hw]; exact hi)
  · intro ch hch
    rw [hsp] at hch ⊢
    simp only [List.mem_map] at hch
    obtain ⟨pr, hpr, hche⟩ := hch
    rw [← hche, evict_length, evict_length]
    simp [hinv pr.1 (List.of_mem_zip hpr).1]
  · rw [hsp]
    intro hcontra
    rw [← List.length_eq_zero] at hcontra
    rw [hlen1] at hcontra
    exact hds (List.length_eq_zero.mp hcontra)
  · rw [hsp]
    simp only [evict_length, List.length_append, List.length_singleton]
    omega
  · rw [hsp]
    simp only [evict_length, List.length_append, List.length_singleton]
    omega

lemma accept_run (ok : Bool) (ps : List Packet) : ∀ (s : LoopState),
    s.data.dataset ≠ [] →
    (∀ ch ∈ s.data.dataset, ch.length = s.data.time.length) →
    s.data.absolute_time.length = s.data.time.length →
    s.data.time.length ≤ s.buffer_size →
    s.failed_format_counter ≤ 10 →
    (∀ p ∈ ps, p.payload ≠ [] ∧ p.payload.head? ≠ some '#' ∧ p.payload.head? ≠ some '$'
        ∧ (split p.payload).length = s.data.dataset.length) →
    (runPackets ok s ps).buffer_size = s.buffer_size
    ∧ (runPackets ok s ps).data.dataset.length = s.data.dataset.length
    ∧ (runPackets ok s ps).data.time
        = evict s.buffer_size (s.data.time ++ ps.map Packet.relative_time)
    ∧ (runPackets ok s ps).data.absolute_time
        = evict s.buffer_size (s.data.absolute_time ++ ps.map Packet.absolute_time)
    ∧ (∀ i, i < s.data.dataset.length →
        (runPackets ok s ps).data.dataset.getD i []
          = evict s.buffer_size (s.data.dataset.getD i []
              ++ ps.map (fun p => (split p.payload).getD i 0))) := by
  induction ps with
  | nil =>
    intro s hds hinv habs htl hc hps
    refine ⟨rfl, rfl, ?_, ?_, ?_⟩
    · rw [List.map_nil, List.append_nil, evict_of_le htl]
      rfl
    · rw [List.map_nil, List.append_nil, evict_of_le (by omega)]
      rfl
    · intro i hi
      have hmem : s.data.dataset.getD i [] ∈ s.data.dataset := by
        rw [List.getD_eq_getElem?_getD, List.getElem?_eq_getElem hi]
        exact List.getElem_mem hi
      have hlen : (s.data.dataset.getD i []).length ≤ s.buffer_size := by
        rw [hinv _ hmem]
        exact htl
      rw [List.map_nil, List.append_nil, evict_of_le hlen]
      rfl
  | cons p rest ih =>
    intro s hds hinv habs htl hc hps
    obtain ⟨hne, hn1, hn2, hw⟩ := hps p (List.mem_cons_self p rest)
    obtain ⟨f1, f2, f3, f4, f5, f6, f7, f8, f9, f10⟩ :=
      accept_step_facts ok s p hne hn1 hn2 hds hinv habs hc hw
    have hps1 : ∀ q ∈ rest, q.payload ≠ [] ∧ q.payload.head? ≠ some '#'
        ∧ q.payload.head? ≠ some '$'
        ∧ (split q.payload).length = (stepPacket ok s p).data.dataset.length := by
      intro q hq
      obtain ⟨a, b, c, d⟩ := hps q (List.mem_cons_of_mem p hq)
      exact ⟨a, b, c, by rw [f3]; exact d⟩
    obtain ⟨j1, j2, j3, j4, j5⟩ := ih (stepPacket ok s p) f8 f7 f9 (by rw [f1]; exact f10)
      (by rw [f2]; omega) hps1
    have hrun : runPackets ok s (p :: rest) = runPackets ok (stepPacket ok s p) rest := rfl
    refine ⟨?_, ?_, ?_, ?_, ?_⟩
    · rw [hrun, j1, f1]
    · rw [hrun, j2, f3]
    · rw [hrun, j3, f1, f4, evict_append_evict, List.map_cons, List.append_assoc]
      rfl
    · rw [hrun, j4, f1, f5, evict_append_evict, List.map_cons, List.append_assoc]
      rfl
    · intro i hi
      have hi1 : i < (stepPacket ok s p).data.dataset.length := by
        rw [f3]
        exact hi
      rw [hrun, j5 i hi1, f1, f6 i hi, evict_append_evict, List.map_cons,
        List.append_assoc]
      rfl

/-- C3: with buffer capacity `N`, after more than `N` consecutive data
lines of matching width have been accepted, the `time` sequence (and
`absolute_time`, and every channel sequence) has length exactly `N` and
its content equals the last `N` accepted timestamps (respectively values),
in arrival order. -/
theorem C3_sliding_window (ok : Bool) (s : LoopState) (ps : List Packet) (N : Nat)
    (hbs : s.buffer_size = N)
    (hds : s.data.dataset ≠ [])
    (hinv : Inv s.data)
    (hc : s.failed_format_counter ≤ 10)
    (hps : ∀ p ∈ ps, p.payload ≠ [] ∧ p.payload.head? ≠ some '#' ∧ p.payload.head? ≠ some '$'
        ∧ (split p.payload).length = s.data.dataset.length)
    (hM : N < ps.length) :
    (runPackets ok s ps).data.time.length = N
    ∧ (runPackets ok s ps).data.time = (ps.map Packet.relative_time).drop (ps.length - N)
    ∧ (runPackets ok s ps).data.absolute_time
        = (ps.map Packet.absolute_time).drop (ps.length - N)
    ∧ (runPackets ok s ps).data.dataset.length = s.data.dataset.length
    ∧ (∀ i, i < s.data.dataset.length →
        ((runPackets ok s ps).data.dataset.getD i []).length = N
        ∧ (runPackets ok s ps).data.dataset.getD i []
            = (ps.map (fun p => (split p.payload).getD i 0)).drop (ps.length - N)) := by
  subst hbs
  obtain ⟨hinv1, hinv2⟩ := hinv
  rcases ps with _ | ⟨p, rest⟩
  · simp at hM
  · obtain ⟨hne, hn1, hn2, hw⟩ := hps p (List.mem_cons_self p rest)
    obtain ⟨f1, f2, f3, f4, f5, f6, f7, f8, f9, f10⟩ :=
      accept_step_facts ok s p hne hn1 hn2 hds hinv1 hinv2 hc hw
    have hps1 : ∀ q ∈ rest, q.payload ≠ [] ∧ q.payload.head? ≠ some '#'
        ∧ q.payload.head? ≠ some '$'
        ∧ (split q.payload).length = (stepPacket ok s p).data.dataset.length := by
      intro q hq
      obtain ⟨a, b, c, d⟩ := hps q (List.mem_cons_of_mem p hq)
      exact ⟨a, b, c, by rw [f3]; exact d⟩
    obtain ⟨j1, j2, j3, j4, j5⟩ := accept_run ok rest (stepPacket ok s p) f8 f7 f9
      (by rw [f1]; exact f10) (by rw [f2]; omega) hps1
    have hrun : runPackets ok s (p :: rest) = runPackets ok (stepPacket ok s p) rest := rfl
    have hlenmap : s.buffer_size ≤ ((p :: rest).map Packet.relative_time).length := by
      rw [List.length_map]
      omega
    have htime : (runPackets ok s (p :: rest)).data.time
        = ((p :: rest).map Packet.relative_time).drop
            (((p :: rest).map Packet.relative_time).length - s.buffer_size) := by
      rw [hrun, j3, f1, f4, evict_append_evict]
      have : (s.data.time ++ [p.relative_time]) ++ rest.map Packet.relative_time
          = s.data.time ++ (p :: rest).map Packet.relative_time := by
        rw [List.map_cons, List.append_assoc]
        rfl
      rw [this, evict_append_of_le _ _ _ hlenmap]
    refine ⟨?_, ?_, ?_, ?_, ?_⟩
    · rw [htime, List.length_drop, List.length_map, List.length_cons]
      simp only [List.length_map, List.length_cons] at hlenmap
      omega
    · rw [htime, List.length_map]
    · have hlenmap2 : s.buffer_size ≤ ((p :: rest).map Packet.absolute_time).length := by
        rw [List.length_map]
        omega
      rw [hrun, j4, f1, f5, evict_append_evict]
      have : (s.data.absolute_time ++ [p.absolute_time]) ++ rest.map Packet.absolute_time
          = s.data.absolute_time ++ (p :: rest).map Packet.absolute_time := by
        rw [List.map_cons, List.append_assoc]
        rfl
      rw [this, evict_append_of_le _ _ _ hlenmap2, List.length_map]
    · rw [hrun, j2, f3]
    · intro i hi
      have hi1 : i < (stepPacket ok s p).data.dataset.length := by
        rw [f3]
        exact hi
      have hlenmap3 : s.buffer_size
          ≤ ((p :: rest).map (fun q => (split q.payload).getD i 0)).length := by
        rw [List.length_map]
        omega
      have hch : (runPackets ok s (p :: rest)).data.dataset.getD i []
          = ((p :: rest).map (fun q => (split q.payload).getD i 0)).drop
              (((p :: rest).map (fun q => (split q.payload).getD i 0)).length
                - s.buffer_size) := by
        rw [hrun, j5 i hi1, f1, f6 i hi, evict_append_evict]
        have : (s.data.dataset.getD i [] ++ [(split p.payload).getD i 0])
              ++ rest.map (fun q => (split q.payload).getD i 0)
            = s.data.dataset.getD i []
              ++ (p :: rest).map (fun q => (split q.payload).getD i 0) := by
          rw [List.map_cons, List.append_assoc]
          rfl
        rw [this, evict_append_of_le _ _ _ hlenmap3]
      refine ⟨?_, ?_⟩
      · rw [hch, List.length_drop, List.length_map, List.length_cons]
        simp only [List.length_map, List.length_cons] at hlenmap3
        omega
      · rw [hch, List.length_map]

/-- C3 witness: buffer capacity 4, five accepted width-1 lines from a
state holding one prior sample; the stored content is exactly the last
four values and timestamps. -/
theorem C3_witness :
    (runPackets true exampleAcceptState
        ([10, 20, 30, 40, 50].map (fun n => examplePacket (toString n) n))).data.time
      = [20, 30, 40, 50]
    ∧ (runPackets true exampleAcceptState
        ([10, 20, 30, 40, 50].map (fun n => examplePacket (toString n) n))).data.dataset.getD 0 []
      = [20, 30, 40, 50] := by
  have h := C3_sliding_window true exampleAcceptState
    ([10, 20, 30, 40, 50].map (fun n => examplePacket (toString n) n)) 4
    (by decide) (by decide) (by decide) (by decide) (by decide) (by decide)
  refine ⟨?_, ?_⟩
  · rw [h.2.1]
    decide
  · rw [(h.2.2.2.2 0 (by decide)).2]
    decide

end SerialMonitor
